import Mathlib

/-!
# Verification of the XLA JIT compilation-cache core (TJU-NSL/nvidia-tensorflow)

Shallow embedding of:
* `HloPassFix<Pass>::Run` (tensorflow/compiler/xla/service/hlo_pass_fix.h),
* `ConvParameters` (tensorflow/core/kernels/conv_ops_gpu.h),
* the `XlaCompilationCache` core (tensorflow/compiler/jit/xla_compilation_cache.h).

For the compilation cache only the header (declarations, struct fields,
constants) is part of the excerpted sources; the member-function bodies live
in `xla_compilation_cache.cc`, which is not included.  Those operations are
therefore modelled from the specification, and each such definition carries a
doc comment starting with `Modelled from the spec:`.
-/

/-! ## HloPassFix (source: hlo_pass_fix.h, lines 38-60)

`HloPassFix<Pass>::Run` repeatedly invokes `Pass::Run(module)` while the last
iteration reported a change.  `changed` accumulates the per-iteration flags
with `|=`.  After each iteration `iteration_count` is incremented and compared
against `kLimit = 25`; on reaching the limit the function returns `false`
regardless of the accumulated flag.  `Pass::Run` returns `StatusOr<bool>`,
embedded here as `Except E (Bool × M)` (the pass also mutates the module,
embedded as returning the new module).  Our embedding additionally returns the
list of per-iteration `changed_this_iteration` flags, so that the number of
pass invocations and the "did any iteration change the module" predicate are
observable. -/

/-- Constant `kLimit` from `HloPassFix::Run`. -/
def hloPassFixLimit : Nat := 25

/-- The loop body of `HloPassFix<Pass>::Run`.  `remaining` is
`kLimit - iteration_count` (the loop is entered with
`changed_this_iteration = true`); `changed` is the accumulator.  Mirrors the
source: run the pass, OR the flag into `changed`, increment the iteration
count, return `false` if the count reached `kLimit`, otherwise loop while the
iteration reported a change.  Returns the final `changed` answer, the final
module, and the list of per-iteration flags. -/
def hloPassFixGo {E M : Type} (p : M → Except E (Bool × M)) :
    Nat → Bool → M → Except E (Bool × M × List Bool)
  | 0, changed, m => Except.ok (changed, m, [])
  | remaining + 1, changed, m =>
    match p m with
    | Except.error e => Except.error e
    | Except.ok (c, m2) =>
      if remaining = 0 then Except.ok (false, m2, [c])
      else if c then
        match hloPassFixGo p remaining (changed || c) m2 with
        | Except.error e => Except.error e
        | Except.ok (res, m3, flags) => Except.ok (res, m3, c :: flags)
      else Except.ok (changed || c, m2, [c])

/-- Function `HloPassFix<Pass>::Run` (hlo_pass_fix.h lines 38-60): start with
`changed = false`, `iteration_count = 0`. -/
def hloPassFixRun {E M : Type} (p : M → Except E (Bool × M)) (m : M) :
    Except E (Bool × M × List Bool) :=
  hloPassFixGo p hloPassFixLimit false m

/-! ## ConvParameters (source: conv_ops_gpu.h, lines 93-268)

`DataType` and `TensorFormat` are C++ enums; they are embedded as `Nat` codes
(`ToProto` stores them verbatim and the proto constructor casts them back, so
only their identity matters here).  The `int64` fields are embedded as `Int`;
the `uint64` hash is a `Nat` reduced `% 2^64`. -/

/-- The data fields of `ConvParameters` (conv_ops_gpu.h lines 256-267); the
`int` fields `device_id_` / `group_count_` are also embedded as `Int`. -/
structure ConvParameters where
  batch : Int
  in_depths : Int
  out_depths : Int
  inSpatial : List Int
  data_format : Nat
  filter : List Int
  dilation : List Int
  stride : List Int
  padding : List Int
  dtype : Nat
  device_id : Int
  group_count : Int
  deriving DecidableEq, Repr

/-- Message `ConvParamsProto` (conv_autotuning.pb.h): same fields, with the repeated
`int64` fields as unbounded lists. -/
structure ConvParamsProto where
  batch : Int
  in_depths : Int
  out_depths : Int
  inSpatial : List Int
  data_format : Nat
  filter : List Int
  dilation : List Int
  stride : List Int
  padding : List Int
  dtype : Nat
  device_id : Int
  group_count : Int
  deriving DecidableEq, Repr

/-- Method `ConvParameters::ToProto` (conv_ops_gpu.h lines 146-171): every field is
copied verbatim, the repeated fields in order. -/
def ConvParameters.ToProto (p : ConvParameters) : ConvParamsProto :=
  { batch := p.batch
    in_depths := p.in_depths
    out_depths := p.out_depths
    inSpatial := p.inSpatial
    data_format := p.data_format
    filter := p.filter
    dilation := p.dilation
    stride := p.stride
    padding := p.padding
    dtype := p.dtype
    device_id := p.device_id
    group_count := p.group_count }

/-- Helper `ConvParameters::CheckSpatialArraySize` (conv_ops_gpu.h lines 223-226):
`CHECK_LE(array.size(), 3)` aborts the process when the array is longer than
3; embedded as `Option`. -/
def CheckSpatialArraySize (a : List Int) : Option (List Int) :=
  if a.length ≤ 3 then some a else none

/-- Constructor `ConvParameters::ConvParameters(const ConvParamsProto&)` (conv_ops_gpu.h
lines 116-135): copies every field back from the proto, passing each spatial
array through `CheckSpatialArraySize`.  A `CHECK` failure (array longer
than 3) is embedded as `none`. -/
def ConvParameters.ofProto (q : ConvParamsProto) : Option ConvParameters :=
  match CheckSpatialArraySize q.inSpatial, CheckSpatialArraySize q.filter,
      CheckSpatialArraySize q.dilation, CheckSpatialArraySize q.stride,
      CheckSpatialArraySize q.padding with
  | some i, some f, some d, some s, some pd =>
    some { batch := q.batch
           in_depths := q.in_depths
           out_depths := q.out_depths
           inSpatial := i
           data_format := q.data_format
           filter := f
           dilation := d
           stride := s
           padding := pd
           dtype := q.dtype
           device_id := q.device_id
           group_count := q.group_count }
  | _, _, _, _, _ => none

/-- Method `ConvParameters::get_data_as_tuple` (conv_ops_gpu.h lines 212-216): the
tuple of all twelve data fields, in declaration order. -/
def ConvParameters.get_data_as_tuple (p : ConvParameters) :
    Int × Int × List Int × Nat × Int × List Int × List Int × List Int ×
      List Int × Nat × Int × Int :=
  (p.batch, p.in_depths, p.inSpatial, p.data_format, p.out_depths, p.filter,
   p.dilation, p.stride, p.padding, p.dtype, p.device_id, p.group_count)

/-- Operator `ConvParameters::operator==` (conv_ops_gpu.h lines 137-139): compares
`get_data_as_tuple()`. -/
def ConvParameters.eq (p q : ConvParameters) : Bool :=
  p.get_data_as_tuple == q.get_data_as_tuple

/-- Embedding of a C++ `int64` value as the `uint64` it converts to
(two's complement, i.e. reduction mod `2^64`). -/
def toUInt64Nat (i : Int) : Nat := (i % (2 ^ 64 : Int)).toNat

/-- Model of `tensorflow::Hash64Combine` (tensorflow/core/lib/hash/hash.h,
not among the excerpted sources): a deterministic combiner of two `uint64`
values, `a ^ (b + 0x9e3779b97f4a7c16 + (a << 10) + (a >> 4))`, reduced
mod `2^64`.  The properties proved below depend only on its determinism. -/
def Hash64Combine (a b : Nat) : Nat :=
  (a ^^^ ((b + 0x9e3779b97f4a7c16 + a * 1024 + a / 16) % 2 ^ 64)) % 2 ^ 64

/-- Method `ConvParameters::UpdateHash` (conv_ops_gpu.h lines 241-254): folds every
data field, in declaration order of the hash statements, into the `uint64`
hash code, starting from `batch_`. -/
def ConvParameters.UpdateHash (p : ConvParameters) : Nat :=
  let h := toUInt64Nat p.batch
  let h := Hash64Combine h (toUInt64Nat p.in_depths)
  let h := p.inSpatial.foldl (fun a v => Hash64Combine a (toUInt64Nat v)) h
  let h := Hash64Combine h p.data_format
  let h := Hash64Combine h (toUInt64Nat p.out_depths)
  let h := p.filter.foldl (fun a v => Hash64Combine a (toUInt64Nat v)) h
  let h := p.dilation.foldl (fun a v => Hash64Combine a (toUInt64Nat v)) h
  let h := p.stride.foldl (fun a v => Hash64Combine a (toUInt64Nat v)) h
  let h := p.padding.foldl (fun a v => Hash64Combine a (toUInt64Nat v)) h
  let h := Hash64Combine h p.dtype
  let h := Hash64Combine h (toUInt64Nat p.device_id)
  Hash64Combine h (toUInt64Nat p.group_count)

/-- Accessor `ConvParameters::hash()` (conv_ops_gpu.h line 144) returns `hash_code_`,
which every constructor sets via `UpdateHash()` from the data fields. -/
def ConvParameters.hash (p : ConvParameters) : Nat := p.UpdateHash

/-! ## XlaCompilationCache data model (source: xla_compilation_cache.h)

Only the header is among the excerpted sources.  The enums, struct fields and
constants below are taken from the header; every operation whose body lives in
the missing `xla_compilation_cache.cc` is modelled from the spec and says so
in its doc comment. -/

/-- Enum `XlaCompilationCache::CompileState` (header lines 55-59). -/
inductive CompileState
  | kUncompiled
  | kCompiling
  | kCompiled
  deriving DecidableEq, Repr

/-- Enum `XlaCompilationCache::CompileMode` (header lines 49-53). -/
inductive CompileMode
  | kLazy
  | kStrict
  | kAsync
  deriving DecidableEq, Repr

/-- Embedding of `tensorflow::Status`: a numeric error code (0 = OK,
3 = INVALID_ARGUMENT as in TensorFlow's `error::Code`) plus a message. -/
structure Status where
  code : Nat
  message : String
  deriving DecidableEq, Repr

/-- The OK status. -/
def okStatus : Status := { code := 0, message := "" }

/-- An InvalidArgument-class status (`tensorflow::errors::InvalidArgument`,
code 3). -/
def invalidArgument (msg : String) : Status := { code := 3, message := msg }

/-- Embedding of a host-memory `Tensor` constant: dtype code, shape, and the
flattened element data (structural equality is field equality). -/
structure TensorValue where
  dtype : Nat
  shape : List Int
  elems : List Int
  deriving DecidableEq, Repr

/-- Struct `XlaCompilationCache::Signature` (header lines 104-123): name,
ordered (type, shape) list for the non-constant arguments, ordered constant
values.  `DataType` is embedded as a `Nat` code. -/
structure Signature where
  name : String
  arg_shapes : List (Nat × List Int)
  arg_values : List TensorValue
  deriving DecidableEq, Repr

/-- Modelled from the spec: `Signature::operator==` (declared header line 115,
body in the missing `xla_compilation_cache.cc`).  "Two Signatures are equal
iff name, argument kind/shape sequence, and constant values are all
structurally equal." -/
def Signature.eq (a b : Signature) : Bool :=
  decide (a.name = b.name) && decide (a.arg_shapes = b.arg_shapes) &&
    decide (a.arg_values = b.arg_values)

/-- Fold a string into a `uint64` hash via `Hash64Combine`. -/
def hashStringNat (s : String) : Nat :=
  s.data.foldl (fun a c => Hash64Combine a c.toNat) 0

/-- Modelled from the spec: `Signature::Hash::operator()` (declared header
lines 117-119, body in the missing `xla_compilation_cache.cc`).  A
deterministic `uint64` hash computed from exactly the three fields compared
by `Signature::operator==`, so that "equality and hash must agree". -/
def Signature.hash (s : Signature) : Nat :=
  let h := hashStringNat s.name
  let h := s.arg_shapes.foldl
    (fun a ds =>
      Hash64Combine (Hash64Combine a ds.1)
        (ds.2.foldl (fun x v => Hash64Combine x (toUInt64Nat v)) 0)) h
  s.arg_values.foldl
    (fun a t =>
      Hash64Combine (Hash64Combine a t.dtype)
        ((t.shape ++ t.elems).foldl
          (fun x v => Hash64Combine x (toUInt64Nat v)) 0)) h

/-- The kinds of `XlaCompiler::Argument` that `BuildSignature` consumes:
compile-time constants and parameters described by type/shape metadata. -/
inductive ArgumentKind
  | kConstant
  | kParameter
  deriving DecidableEq, Repr

/-- Modelled from the spec: the argument description handed to
`BuildSignature` — a kind, optional type/shape metadata, and an optional
constant literal (absent metadata or literal makes the argument
malformed). -/
structure Argument where
  kind : ArgumentKind
  typeShape : Option (Nat × List Int)
  constant_value : Option TensorValue
  deriving DecidableEq, Repr

/-- An argument carries everything `BuildSignature` requires of its kind: a
constant carries a literal value, a parameter carries type/shape metadata. -/
def Argument.wellFormed (a : Argument) : Bool :=
  match a.kind with
  | ArgumentKind.kConstant => a.constant_value.isSome
  | ArgumentKind.kParameter => a.typeShape.isSome

/-- Modelled from the spec: `XlaCompilationCache::BuildSignature` (declared
header lines 126-128, body in the missing `xla_compilation_cache.cc`).
"Fails with an InvalidArgument-class error if an argument is declared
compile-time-constant but no literal value is supplied, or if shape/type
metadata is absent where required"; otherwise appends each constant's value
to `arg_values` and each parameter's (type, shape) pair to `arg_shapes`, in
argument order, and succeeds. -/
def BuildSignature (function_name : String) :
    List Argument → Except Status Signature
  | [] => Except.ok { name := function_name, arg_shapes := [], arg_values := [] }
  | a :: rest =>
    match a.kind with
    | ArgumentKind.kConstant =>
      match a.constant_value with
      | none =>
        Except.error (invalidArgument "constant argument with no literal value")
      | some v =>
        match BuildSignature function_name rest with
        | Except.error e => Except.error e
        | Except.ok s => Except.ok { s with arg_values := v :: s.arg_values }
    | ArgumentKind.kParameter =>
      match a.typeShape with
      | none =>
        Except.error (invalidArgument "argument with no shape/type metadata")
      | some ts =>
        match BuildSignature function_name rest with
        | Except.error e => Except.error e
        | Except.ok s => Except.ok { s with arg_shapes := ts :: s.arg_shapes }

/-- Constant `AsyncCompilation::kNrofCompilerThreads` (header line 221). -/
def kNrofCompilerThreads : Nat := 10

/-- Constant `AsyncCompilation::kMaxNrofOngoingCompilations`
(header line 224). -/
def kMaxNrofOngoingCompilations : Nat := kNrofCompilerThreads

/-- The mutable state of `XlaCompilationCache::AsyncCompilation` (header
lines 217-237): the in-flight counter `nrof_ongoing_compilations`, guarded by
`async_compilation_mu_` and initialised to 0. -/
structure AsyncCompilation where
  nrof_ongoing_compilations : Nat
  deriving DecidableEq, Repr

/-- Modelled from the spec: the async coordinator's `submit` operation (the
body lives in the missing `CompileAsynchronous`).  "`submit` increments the
in-flight counter and dispatches work only if the counter is below the
configured cap; otherwise it declines (accepted = false)" and the caller must
treat a declined submission as try-again-later, never as an error — the
returned status is OK in both branches, and both branches return immediately.
Returns the new coordinator state, the accepted flag, and the status. -/
def AsyncCompilation.submit (a : AsyncCompilation) :
    AsyncCompilation × Bool × Status :=
  if a.nrof_ongoing_compilations < kMaxNrofOngoingCompilations then
    ({ nrof_ongoing_compilations := a.nrof_ongoing_compilations + 1 },
      true, okStatus)
  else
    (a, false, okStatus)

/-- Constant `XlaCompilationCache::kDefaultCompilationThreshold` (header
line 242): "The number of times a lazy compilation must be requested for a
specific signature before we attempt to compile it."  The source sets it
to 0. -/
def kDefaultCompilationThreshold : Nat := 0

/-- The fields of `XlaCompilationCache::Entry` (header lines 152-170) used by
the sequential lazy compile path: the compile state, the request counter, and
the cached compilation result (abstracted to a `Nat` handle, `some` once a
result has been stored). -/
structure LazyEntry where
  compile_state : CompileState
  request_count : Nat
  compilation_result : Option Nat
  deriving DecidableEq, Repr

/-- A fresh cache entry, as `get_or_create` makes it on first sight of a
signature (header field initialisers: `kUncompiled`, `request_count = 0`). -/
def freshEntry : LazyEntry :=
  { compile_state := CompileState.kUncompiled
    request_count := 0
    compilation_result := none }

/-- Modelled from the spec: one lazy-mode request (`CompileImpl` with
`compile_mode = kLazy`; body in the missing `xla_compilation_cache.cc`).
The lookup increments the entry's request counter; if the entry is already
compiled, the cached result is returned without invoking the Compiler;
otherwise "the entry's request counter is compared against a compilation
threshold": strictly below the threshold the call returns immediately with no
result and without compiling, at or above it the external Compiler is invoked
(producing result `r`) and the entry becomes compiled.  Returns the updated
entry, the result returned to the caller, and whether the Compiler was
invoked. -/
def lazyRequest (threshold : Nat) (r : Nat) (e : LazyEntry) :
    LazyEntry × Option Nat × Bool :=
  let e1 := { e with request_count := e.request_count + 1 }
  match e1.compile_state with
  | CompileState.kCompiled => (e1, e1.compilation_result, false)
  | _ =>
    if e1.request_count < threshold then
      (e1, none, false)
    else
      ({ e1 with
          compile_state := CompileState.kCompiled
          compilation_result := some r },
        some r, true)

/-- Run `n` successive lazy-mode requests against an entry, collecting each
request's returned result and compiler-invocation flag in order. -/
def lazyRun (threshold r : Nat) : Nat → LazyEntry → LazyEntry × List (Option Nat × Bool)
  | 0, e => (e, [])
  | n + 1, e =>
    let step := lazyRequest threshold r e
    let rest := lazyRun threshold r n step.1
    (rest.1, step.2 :: rest.2)

/-- Struct `XlaCompilationCache::ClusterCompileStats` (header lines 191-209),
with the header's field initialisers reflected in `defaultClusterStats`. -/
structure ClusterCompileStats where
  compile_count : Nat
  execution_count : Nat
  cumulative_compile_time_us : Nat
  max_compile_time_s : Nat
  is_megamorphic : Bool
  deriving DecidableEq, Repr

/-- Default-constructed `ClusterCompileStats` (header: all counters 0,
`is_megamorphic = false`). -/
def defaultClusterStats : ClusterCompileStats :=
  { compile_count := 0
    execution_count := 0
    cumulative_compile_time_us := 0
    max_compile_time_s := 0
    is_megamorphic := false }

/-- The cluster-statistics table `cluster_compile_stats_` (header line 214):
cluster name → stats, with `flat_hash_map` misses read as default-constructed
stats. -/
abbrev StatsTable := String → ClusterCompileStats

/-- Update one cluster's stats record in the table. -/
def updateStats (t : StatsTable) (cluster : String)
    (f : ClusterCompileStats → ClusterCompileStats) : StatsTable :=
  fun n => if n = cluster then f (t n) else t n

/-- The operations of the compile path that consult or mutate the
cluster-statistics table.  A `request` carries the compile mode, the cluster
name, and `wants_compile`: whether the per-entry policy (threshold, compile
state) would compile this request if the cluster were not megamorphic. -/
inductive StatsOp
  | request (mode : CompileMode) (cluster : String) (wants_compile : Bool)
  | markMegamorphic (cluster : String)
  | recordCompilation (cluster : String) (time_us : Nat)
  deriving DecidableEq, Repr

/-- Modelled from the spec: the megamorphic gate of the compile-decision
policy plus the stats-table updates (bodies in the missing
`xla_compilation_cache.cc`).  A `request` first consults the cluster's
`is_megamorphic` flag: "once set, the policy in all modes must skip
compilation and report not-compiled for that cluster name regardless of
mode"; only a non-megamorphic cluster may reach the Compiler.  The demotion
heuristic firing is `markMegamorphic` (it only ever sets the flag — "once a
cluster is tagged megamorphic, it stays megamorphic forever", header lines
204-208).  `recordCompilation` accounts a finished compilation's timing.
Returns the new table and, for a request, whether the Compiler was
invoked. -/
def applyStatsOp (t : StatsTable) : StatsOp → StatsTable × Option Bool
  | StatsOp.request _mode cluster wants_compile =>
    (updateStats t cluster
        (fun s => { s with execution_count := s.execution_count + 1 }),
      some (!(t cluster).is_megamorphic && wants_compile))
  | StatsOp.markMegamorphic cluster =>
    (updateStats t cluster (fun s => { s with is_megamorphic := true }), none)
  | StatsOp.recordCompilation cluster time_us =>
    (updateStats t cluster
        (fun s =>
          { s with
              compile_count := s.compile_count + 1
              cumulative_compile_time_us :=
                s.cumulative_compile_time_us + time_us
              max_compile_time_s :=
                max s.max_compile_time_s (time_us / 1000000) }),
      none)

/-- Apply a sequence of stats operations, pairing every operation with its
compiler-invocation output. -/
def runStatsOps (t : StatsTable) :
    List StatsOp → StatsTable × List (StatsOp × Option Bool)
  | [] => (t, [])
  | op :: ops =>
    let step := applyStatsOp t op
    let rest := runStatsOps step.1 ops
    (rest.1, (op, step.2) :: rest.2)

/-! ## Interleaved compile path for one signature (claims C1, C2, C8)

The spec's concurrency contract is stated over the atomic, lock-protected
critical sections of `CompileImpl` for a single signature.  `CacheStep` below
is the spec-modelled step relation: an arbitrary interleaving of any number
of concurrent callers is exactly an arbitrary sequence of these steps, so a
property of all step sequences covers N concurrent callers for every N. -/

/-- The fields of `XlaCompilationCache::Entry` (header lines 152-170) visible
to the concurrent compile path: compile state, request counter, compilation
status, and the compilation result (abstracted to a `Nat` handle). -/
structure EntryState where
  compile_state : CompileState
  request_count : Nat
  compilation_status : Status
  compilation_result : Option Nat
  deriving DecidableEq, Repr

/-- The shared state observed by the concurrent callers requesting one
signature: the signature's cache entry, plus the number of times the external
Compiler has been invoked for it. -/
structure CacheState where
  entry : EntryState
  compiler_invocations : Nat
  deriving DecidableEq, Repr

/-- The state for a previously unseen signature: `get_or_create` inserts a
default-constructed `Entry` (`kUncompiled`, `request_count = 0`) and the
Compiler has never been invoked for it. -/
def initialCacheState : CacheState :=
  { entry :=
      { compile_state := CompileState.kUncompiled
        request_count := 0
        compilation_status := okStatus
        compilation_result := none }
    compiler_invocations := 0 }

/-- The atomic actions of the compile path for one signature.  `readResult`
carries the status/result the reading caller observes. -/
inductive CacheAction
  | lookup
  | beginCompile
  | finishCompile (st : Status) (r : Option Nat)
  | readResult (st : Status) (r : Option Nat)
  deriving DecidableEq, Repr

/-- Modelled from the spec: the atomic steps of `CompileImpl`'s compile path
for one signature (body in the missing `xla_compilation_cache.cc`).
* `lookup` — a caller resolves the signature in the cache table and
  increments the entry's request counter by exactly 1.
* `beginCompile` — a caller finds the entry `kUncompiled` and wins the
  Uncompiled→Compiling race; the winner (and only the winner) invokes the
  external Compiler exactly once, so the invocation counter is accounted to
  this transition.
* `finishCompile st r` — the winning caller records the Compiler's outcome
  under the entry lock: the entry becomes `kCompiled` carrying status `st`
  (for a failed compilation, the error status) and result `r`.
* `readResult` — any caller that finds the entry `kCompiled` reads the
  recorded status and result, leaving the state unchanged (callers that find
  `kCompiling` block on the entry's lock, i.e. take no step, until the
  in-progress compilation completes). -/
inductive CacheStep : CacheState → CacheAction → CacheState → Prop
  | lookup (s : CacheState) :
      CacheStep s CacheAction.lookup
        { s with entry :=
            { s.entry with request_count := s.entry.request_count + 1 } }
  | beginCompile (s : CacheState)
      (h : s.entry.compile_state = CompileState.kUncompiled) :
      CacheStep s CacheAction.beginCompile
        { entry := { s.entry with compile_state := CompileState.kCompiling }
          compiler_invocations := s.compiler_invocations + 1 }
  | finishCompile (s : CacheState) (st : Status) (r : Option Nat)
      (h : s.entry.compile_state = CompileState.kCompiling) :
      CacheStep s (CacheAction.finishCompile st r)
        { s with entry :=
            { s.entry with
                compile_state := CompileState.kCompiled
                compilation_status := st
                compilation_result := r } }
  | readResult (s : CacheState)
      (h : s.entry.compile_state = CompileState.kCompiled) :
      CacheStep s
        (CacheAction.readResult s.entry.compilation_status
          s.entry.compilation_result) s

/-- Zero or more interleaved steps of any callers. -/
def CacheSteps : CacheState → CacheState → Prop :=
  Relation.ReflTransGen (fun s s2 => ∃ a, CacheStep s a s2)

/-- States reachable from the fresh-signature state by some interleaving. -/
def CacheReachable (s : CacheState) : Prop :=
  CacheSteps initialCacheState s

/-- Numeric rank of a compile state along the progression
Uncompiled → Compiling → Compiled. -/
def CompileState.rank : CompileState → Nat
  | CompileState.kUncompiled => 0
  | CompileState.kCompiling => 1
  | CompileState.kCompiled => 2

/-! ## Sample inputs used by the witness theorems -/

/-- A concrete `ConvParameters` value (spatial arrays of length 1). -/
def sampleConvParameters : ConvParameters :=
  { batch := 1, in_depths := 2, out_depths := 3, inSpatial := [4]
    data_format := 5, filter := [6], dilation := [7], stride := [8]
    padding := [9], dtype := 10, device_id := 11, group_count := 12 }

/-- A concrete `Signature`. -/
def sampleSignature : Signature :=
  { name := "cluster_0"
    arg_shapes := [(1, [2, 3])]
    arg_values := [{ dtype := 1, shape := [2], elems := [5, 6] }] }

/-- A concrete `Signature` differing from `sampleSignature` in its name. -/
def sampleSignature2 : Signature :=
  { name := "cluster_1"
    arg_shapes := [(1, [2, 3])]
    arg_values := [{ dtype := 1, shape := [2], elems := [5, 6] }] }

/-- A concrete argument that is declared compile-time-constant but carries no
literal value. -/
def sampleBadArgument : Argument :=
  { kind := ArgumentKind.kConstant, typeShape := none, constant_value := none }

/-- A concrete well-formed parameter argument. -/
def sampleGoodArgument : Argument :=
  { kind := ArgumentKind.kParameter, typeShape := some (1, [2, 3])
    constant_value := none }

/-- A stats table whose every cluster is already flagged megamorphic. -/
def sampleMegamorphicTable : StatsTable :=
  fun _ => { defaultClusterStats with is_megamorphic := true }

/-- A concrete cache state whose entry has been compiled successfully. -/
def sampleCompiledState : CacheState :=
  { entry :=
      { compile_state := CompileState.kCompiled
        request_count := 3
        compilation_status := okStatus
        compilation_result := some 7 }
    compiler_invocations := 1 }

/-- A concrete cache state whose entry is being compiled. -/
def sampleCompilingState : CacheState :=
  { entry :=
      { compile_state := CompileState.kCompiling
        request_count := 1
        compilation_status := okStatus
        compilation_result := none }
    compiler_invocations := 1 }

/-! ## Theorems -/

/-- Characterisation of the `HloPassFix` loop body: starting with `remaining`
allowed iterations (at least one), a successful run performs at least one and
at most `remaining` pass invocations; exactly `remaining` invocations means
the limit branch fired and the answer is `false`; fewer invocations means the
last iteration reported no change and the answer is the accumulator ORed with
the per-iteration flags. -/
theorem hloPassFixGo_spec {E M : Type} (p : M → Except E (Bool × M)) :
    ∀ (remaining : Nat) (changed : Bool) (m : M) (res : Bool) (m2 : M)
      (flags : List Bool),
      1 ≤ remaining →
      hloPassFixGo p remaining changed m = Except.ok (res, m2, flags) →
      flags ≠ [] ∧ flags.length ≤ remaining ∧
        (flags.length = remaining → res = false) ∧
        (flags.length < remaining →
          res = (changed || flags.any id) ∧ flags.getLast? = some false) := by
  intro remaining
  induction remaining with
  | zero => intro changed m res m2 flags h; omega
  | succ r ih =>
    intro changed m res m2 flags _ hrun
    rw [hloPassFixGo] at hrun
    cases hp : p m with
    | error e => rw [hp] at hrun; exact absurd hrun (by simp)
    | ok cm =>
      obtain ⟨c, m1⟩ := cm
      rw [hp] at hrun
      by_cases hr : r = 0
      · subst hr
        simp only [if_pos rfl] at hrun
        obtain ⟨hres, hm, hflags⟩ :
            res = false ∧ m2 = m1 ∧ flags = [c] := by
          cases hrun; exact ⟨rfl, rfl, rfl⟩
        subst hres; subst hflags
        refine ⟨by simp, by simp, fun _ => rfl, fun hlt => ?_⟩
        simp at hlt
      · simp only [if_neg hr] at hrun
        cases hc : c
        · rw [hc] at hrun
          simp only [Bool.false_eq_true, if_neg (by simp : ¬False)] at hrun
          obtain ⟨hres, hm, hflags⟩ :
              res = (changed || false) ∧ m2 = m1 ∧ flags = [false] := by
            cases hrun; exact ⟨rfl, rfl, rfl⟩
          subst hres; subst hflags
          refine ⟨by simp, by simp, ?_, fun _ => ⟨by simp, rfl⟩⟩
          intro hlen; simp at hlen; omega
        · rw [hc] at hrun
          simp only [if_pos rfl] at hrun
          cases hrec : hloPassFixGo p r (changed || true) m1 with
          | error e => rw [hrec] at hrun; exact absurd hrun (by simp)
          | ok rmf =>
            obtain ⟨res1, m3, flags1⟩ := rmf
            rw [hrec] at hrun
            obtain ⟨hres, hm, hflags⟩ :
                res = res1 ∧ m2 = m3 ∧ flags = true :: flags1 := by
              cases hrun; exact ⟨rfl, rfl, rfl⟩
            subst hres; subst hflags
            obtain ⟨hne, hlen, hfull, hpart⟩ :=
              ih (changed || true) m1 res m3 flags1 (by omega) hrec
            refine ⟨by simp, by simp; omega, ?_, ?_⟩
            · intro hl
              exact hfull (by simp at hl; omega)
            · intro hl
              have hl1 : flags1.length < r := by simp at hl; omega
              obtain ⟨hres1, hlast1⟩ := hpart hl1
              constructor
              · rw [hres1]; simp
              · obtain ⟨x, xs, hx⟩ := List.exists_cons_of_ne_nil hne
                subst hx
                simpa using hlast1

/-- C9: `HloPassFix<Pass>::Run` invokes the wrapped pass repeatedly until an
iteration reports no change, performing at most 25 iterations; if the
25-iteration limit is reached it returns `false` even when earlier iterations
changed the module, and otherwise (fixed point reached before the limit) it
returns `true` if and only if at least one iteration changed the module. -/
theorem hloPassFix_run_bounded_iterations {E M : Type}
    (p : M → Except E (Bool × M)) (m : M) (res : Bool) (m2 : M)
    (flags : List Bool)
    (h : hloPassFixRun p m = Except.ok (res, m2, flags)) :
    flags ≠ [] ∧ flags.length ≤ 25 ∧
      (flags.length = 25 → res = false) ∧
      (flags.length < 25 →
        ((res = true ↔ flags.any id = true) ∧ flags.getLast? = some false)) := by
  obtain ⟨hne, hlen, hfull, hpart⟩ :=
    hloPassFixGo_spec p hloPassFixLimit false m res m2 flags (by decide) h
  refine ⟨hne, hlen, hfull, fun hl => ?_⟩
  obtain ⟨hres, hlast⟩ := hpart hl
  rw [Bool.false_or] at hres
  exact ⟨by rw [hres], hlast⟩

/-- Witness for C9: a pass that immediately reports no change runs exactly
one iteration and `HloPassFix::Run` returns `false`. -/
theorem hloPassFix_run_bounded_iterations_witness :
    ([false] : List Bool) ≠ [] ∧ ([false] : List Bool).length ≤ 25 ∧
      (([false] : List Bool).length = 25 → false = false) ∧
      (([false] : List Bool).length < 25 →
        ((false = true ↔ ([false] : List Bool).any id = true) ∧
          ([false] : List Bool).getLast? = some false)) :=
  hloPassFix_run_bounded_iterations
    (fun m : Nat => (Except.ok (false, m) : Except Unit (Bool × Nat)))
    0 false 0 [false] rfl

/-- Two `ConvParameters` compare equal under `operator==` exactly when all
twelve data fields coincide. -/
theorem convParameters_eq_iff (p q : ConvParameters) :
    ConvParameters.eq p q = true ↔ p = q := by
  constructor
  · intro h
    have ht : p.get_data_as_tuple = q.get_data_as_tuple := by
      simpa [ConvParameters.eq] using h
    cases p; cases q
    simp only [ConvParameters.get_data_as_tuple, Prod.mk.injEq] at ht
    obtain ⟨h1, h2, h3, h4, h5, h6, h7, h8, h9, h10, h11, h12⟩ := ht
    simp [h1, h2, h3, h4, h5, h6, h7, h8, h9, h10, h11, h12]
  · intro h
    subst h
    simp [ConvParameters.eq]

/-- C10: `ConvParameters` round-trips through its protocol-buffer form: for
every value whose spatial arrays have length at most 3,
`ConvParameters(p.ToProto())` is `p` itself (hence equal under `operator==`
and with the same `hash()`); and any two `ConvParameters` that compare equal
under `operator==` have equal hashes, the hash being computed from exactly
the fields compared for equality. -/
theorem convParameters_proto_roundtrip (p q : ConvParameters) :
    (p.inSpatial.length ≤ 3 → p.filter.length ≤ 3 → p.dilation.length ≤ 3 →
      p.stride.length ≤ 3 → p.padding.length ≤ 3 →
      ConvParameters.ofProto p.ToProto = some p ∧
        ConvParameters.eq p p = true) ∧
    (ConvParameters.eq p q = true → p.hash = q.hash) := by
  constructor
  · intro h1 h2 h3 h4 h5
    constructor
    · simp only [ConvParameters.ToProto, ConvParameters.ofProto,
        CheckSpatialArraySize, if_pos h1, if_pos h2, if_pos h3, if_pos h4,
        if_pos h5]
    · exact (convParameters_eq_iff p p).mpr rfl
  · intro h
    rw [(convParameters_eq_iff p q).mp h]

/-- Witness for C10 at `sampleConvParameters`. -/
theorem convParameters_proto_roundtrip_witness :
    (ConvParameters.ofProto sampleConvParameters.ToProto =
        some sampleConvParameters ∧
      ConvParameters.eq sampleConvParameters sampleConvParameters = true) ∧
      sampleConvParameters.hash = sampleConvParameters.hash :=
  ⟨(convParameters_proto_roundtrip sampleConvParameters sampleConvParameters).1
      (by decide) (by decide) (by decide) (by decide) (by decide),
    (convParameters_proto_roundtrip sampleConvParameters sampleConvParameters).2
      (by decide)⟩

/-- Two `Signature`s compare equal under `operator==` exactly when name,
argument shape sequence and constant values all coincide. -/
theorem signature_eq_iff (a b : Signature) :
    Signature.eq a b = true ↔
      (a.name = b.name ∧ a.arg_shapes = b.arg_shapes ∧
        a.arg_values = b.arg_values) := by
  simp [Signature.eq, Bool.and_eq_true, and_assoc]

/-- Field-wise equality of `Signature`s is structural equality. -/
theorem signature_fields_ext (a b : Signature)
    (h1 : a.name = b.name) (h2 : a.arg_shapes = b.arg_shapes)
    (h3 : a.arg_values = b.arg_values) : a = b := by
  cases a; cases b
  simp only at h1 h2 h3
  simp [h1, h2, h3]

/-- C5: two `Signature`s are equal iff their name, their ordered argument
kind/shape sequence, and their constant argument values are all structurally
equal; equality and hash agree (equal `Signature`s have equal hashes), and a
difference in any field makes the `Signature`s unequal. -/
theorem signature_equality_spec (a b : Signature) :
    (Signature.eq a b = true ↔
      (a.name = b.name ∧ a.arg_shapes = b.arg_shapes ∧
        a.arg_values = b.arg_values)) ∧
    (Signature.eq a b = true ↔ a = b) ∧
    (Signature.eq a b = true → Signature.hash a = Signature.hash b) ∧
    (a.name ≠ b.name → Signature.eq a b = false) ∧
    (a.arg_shapes ≠ b.arg_shapes → Signature.eq a b = false) ∧
    (a.arg_values ≠ b.arg_values → Signature.eq a b = false) := by
  have hiff := signature_eq_iff a b
  have hstruct : Signature.eq a b = true ↔ a = b := by
    rw [hiff]
    constructor
    · rintro ⟨h1, h2, h3⟩
      exact signature_fields_ext a b h1 h2 h3
    · rintro rfl
      exact ⟨rfl, rfl, rfl⟩
  refine ⟨hiff, hstruct, ?_, ?_, ?_, ?_⟩
  · intro h
    rw [hstruct.mp h]
  · intro hne
    rw [Bool.eq_false_iff]
    intro h
    exact hne ((hiff.mp h).1)
  · intro hne
    rw [Bool.eq_false_iff]
    intro h
    exact hne ((hiff.mp h).2.1)
  · intro hne
    rw [Bool.eq_false_iff]
    intro h
    exact hne ((hiff.mp h).2.2)

/-- Witness for C5: a signature equals itself with agreeing hash, and a
signature differing in its name compares unequal. -/
theorem signature_equality_spec_witness :
    Signature.hash sampleSignature = Signature.hash sampleSignature ∧
      Signature.eq sampleSignature sampleSignature2 = false :=
  ⟨(signature_equality_spec sampleSignature sampleSignature).2.2.1 (by decide),
    (signature_equality_spec sampleSignature sampleSignature2).2.2.2.1
      (by decide)⟩

/-- Signature construction succeeds exactly when every argument carries the
data its kind requires. -/
theorem buildSignature_isOk (fn : String) :
    ∀ args : List Argument,
      (BuildSignature fn args).toOption.isSome = args.all Argument.wellFormed := by
  intro args
  induction args with
  | nil => simp [BuildSignature, Except.toOption]
  | cons a rest ih =>
    rw [BuildSignature]
    cases hk : a.kind
    · cases hv : a.constant_value
      · simp [Except.toOption, List.all_cons, Argument.wellFormed, hk, hv]
      · cases hrec : BuildSignature fn rest with
        | error e =>
          rw [hrec] at ih
          simp [Except.toOption, List.all_cons, Argument.wellFormed, hk, hv,
            ← ih]
        | ok s =>
          rw [hrec] at ih
          simp [Except.toOption, List.all_cons, Argument.wellFormed, hk, hv,
            ← ih]
    · cases hv : a.typeShape
      · simp [Except.toOption, List.all_cons, Argument.wellFormed, hk, hv]
      · cases hrec : BuildSignature fn rest with
        | error e =>
          rw [hrec] at ih
          simp [Except.toOption, List.all_cons, Argument.wellFormed, hk, hv,
            ← ih]
        | ok s =>
          rw [hrec] at ih
          simp [Except.toOption, List.all_cons, Argument.wellFormed, hk, hv,
            ← ih]

/-- Every error `BuildSignature` produces carries the INVALID_ARGUMENT
code. -/
theorem buildSignature_error_code (fn : String) :
    ∀ (args : List Argument) (e : Status),
      BuildSignature fn args = Except.error e → e.code = 3 := by
  intro args
  induction args with
  | nil => intro e h; exact absurd h (by simp [BuildSignature])
  | cons a rest ih =>
    intro e h
    rw [BuildSignature] at h
    cases hk : a.kind <;> rw [hk] at h
    · cases hv : a.constant_value <;> rw [hv] at h
      · cases h; rfl
      · cases hrec : BuildSignature fn rest <;> rw [hrec] at h
        · cases h; exact ih _ hrec
        · exact absurd h (by simp)
    · cases hv : a.typeShape <;> rw [hv] at h
      · cases h; rfl
      · cases hrec : BuildSignature fn rest <;> rw [hrec] at h
        · cases h; exact ih _ hrec
        · exact absurd h (by simp)

/-- C6: `BuildSignature` fails with an InvalidArgument-class error when an
argument is declared compile-time-constant but no literal value is supplied,
or when required shape/type metadata is absent; otherwise it succeeds, and it
is deterministic: identical inputs always produce an equal `Signature` with
an equal hash. -/
theorem buildSignature_invalid_argument (fn : String) (args : List Argument)
    (e : Status) (s t : Signature) :
    ((BuildSignature fn args).toOption.isSome = args.all Argument.wellFormed) ∧
    (BuildSignature fn args = Except.error e → e.code = 3) ∧
    (BuildSignature fn args = Except.ok s → BuildSignature fn args = Except.ok t →
      s = t ∧ Signature.hash s = Signature.hash t) := by
  refine ⟨buildSignature_isOk fn args, buildSignature_error_code fn args e, ?_⟩
  intro hs ht
  rw [hs] at ht
  cases ht
  exact ⟨rfl, rfl⟩

/-- Witness for C6: a constant argument without a literal yields the
INVALID_ARGUMENT code, and a well-formed argument list builds one
deterministic signature. -/
theorem buildSignature_invalid_argument_witness :
    (BuildSignature "f" [sampleBadArgument]).toOption.isSome =
        ([sampleBadArgument].all Argument.wellFormed) ∧
      (invalidArgument "constant argument with no literal value").code = 3 ∧
      ({ name := "f", arg_shapes := [(1, [2, 3])], arg_values := [] } : Signature) =
          { name := "f", arg_shapes := [(1, [2, 3])], arg_values := [] } ∧
        Signature.hash { name := "f", arg_shapes := [(1, [2, 3])], arg_values := [] } =
          Signature.hash { name := "f", arg_shapes := [(1, [2, 3])], arg_values := [] } :=
  ⟨(buildSignature_invalid_argument "f" [sampleBadArgument]
      (invalidArgument "constant argument with no literal value")
      { name := "f", arg_shapes := [], arg_values := [] }
      { name := "f", arg_shapes := [], arg_values := [] }).1,
    (buildSignature_invalid_argument "f" [sampleBadArgument]
      (invalidArgument "constant argument with no literal value")
      { name := "f", arg_shapes := [], arg_values := [] }
      { name := "f", arg_shapes := [], arg_values := [] }).2.1 rfl,
    (buildSignature_invalid_argument "f" [sampleGoodArgument]
      (invalidArgument "constant argument with no literal value")
      { name := "f", arg_shapes := [(1, [2, 3])], arg_values := [] }
      { name := "f", arg_shapes := [(1, [2, 3])], arg_values := [] }).2.2 rfl rfl⟩

/-- C7: when the async coordinator's in-flight counter has reached the cap,
`submit` declines (accepted = false) and returns immediately with the state
unchanged; below the cap it increments the counter and dispatches; in both
cases the returned status is OK — a declined submission is a try-again-later
signal, never an error. -/
theorem async_submit_caps_in_flight (a : AsyncCompilation) :
    ((a.submit.2.2) = okStatus) ∧
    (kMaxNrofOngoingCompilations ≤ a.nrof_ongoing_compilations →
      a.submit = (a, false, okStatus)) ∧
    (a.nrof_ongoing_compilations < kMaxNrofOngoingCompilations →
      a.submit =
        ({ nrof_ongoing_compilations := a.nrof_ongoing_compilations + 1 },
          true, okStatus)) := by
  unfold AsyncCompilation.submit
  by_cases h : a.nrof_ongoing_compilations < kMaxNrofOngoingCompilations
  · rw [if_pos h]
    exact ⟨rfl, fun hle => absurd h (by omega), fun _ => rfl⟩
  · rw [if_neg h]
    exact ⟨rfl, fun _ => rfl, fun hlt => absurd hlt h⟩

/-- Witness for C7: a saturated coordinator (10 in-flight jobs, the cap)
declines without changing state, and an idle coordinator accepts and
increments its counter. -/
theorem async_submit_caps_in_flight_witness :
    AsyncCompilation.submit { nrof_ongoing_compilations := 10 } =
        ({ nrof_ongoing_compilations := 10 }, false, okStatus) ∧
      AsyncCompilation.submit { nrof_ongoing_compilations := 0 } =
        ({ nrof_ongoing_compilations := 0 + 1 }, true, okStatus) :=
  ⟨(async_submit_caps_in_flight { nrof_ongoing_compilations := 10 }).2.1
      (by decide),
    (async_submit_caps_in_flight { nrof_ongoing_compilations := 0 }).2.2
      (by decide)⟩

/-- Below the threshold, lazy requests only count: starting from an
uncompiled entry with counter `c`, as long as every post-increment counter
value stays strictly below the threshold, `k` lazy requests return no result,
never invoke the Compiler, and leave the entry uncompiled with counter
`c + k`. -/
theorem lazyRun_below (threshold r : Nat) :
    ∀ (k c : Nat), c + k < threshold →
      lazyRun threshold r k ⟨CompileState.kUncompiled, c, none⟩ =
        (⟨CompileState.kUncompiled, c + k, none⟩,
          List.replicate k (none, false)) := by
  intro k
  induction k with
  | zero => intro c h; simp [lazyRun]
  | succ n ih =>
    intro c h
    rw [lazyRun]
    have hstep : lazyRequest threshold r ⟨CompileState.kUncompiled, c, none⟩ =
        (⟨CompileState.kUncompiled, c + 1, none⟩, none, false) := by
      simp [lazyRequest, if_pos (show c + 1 < threshold by omega)]
    have hcount : c + (n + 1) = c + 1 + n := by omega
    rw [hcount]
    simp only [hstep, ih (c + 1) (by omega), List.replicate_succ]

/-- From a compiled entry, lazy requests only read: `n` requests return the
cached result, never invoke the Compiler, and only advance the counter. -/
theorem lazyRun_compiled (threshold r : Nat) :
    ∀ (n : Nat) (e : LazyEntry), e.compile_state = CompileState.kCompiled →
      lazyRun threshold r n e =
        ({ e with request_count := e.request_count + n },
          List.replicate n (e.compilation_result, false)) := by
  intro n
  induction n with
  | zero => intro e h; simp [lazyRun]
  | succ n ih =>
    intro e h
    rw [lazyRun]
    have hstep : lazyRequest threshold r e =
        ({ e with request_count := e.request_count + 1 },
          e.compilation_result, false) := by
      simp [lazyRequest, h]
    have hcount : e.request_count + (n + 1) = e.request_count + 1 + n := by
      omega
    rw [hcount]
    simp only [hstep, ih { e with request_count := e.request_count + 1 }
      (by simpa using h), List.replicate_succ]

/-- Over any number of lazy requests against any entry, the external Compiler
is invoked at most once. -/
theorem lazyRun_invocations_le_one (threshold r : Nat) :
    ∀ (n : Nat) (e : LazyEntry),
      ((lazyRun threshold r n e).2.countP (fun o => o.2)) ≤ 1 := by
  intro n
  induction n with
  | zero => intro e; simp [lazyRun]
  | succ n ih =>
    intro e
    rw [lazyRun]
    cases hs : e.compile_state
    · by_cases hlt : e.request_count + 1 < threshold
      · have hstep : lazyRequest threshold r e =
            ({ e with request_count := e.request_count + 1 }, none, false) := by
          simp [lazyRequest, hs, if_pos hlt]
        simp only [hstep, List.countP_cons]
        simpa using ih { e with request_count := e.request_count + 1 }
      · have hstep : lazyRequest threshold r e =
            ({ e with
                request_count := e.request_count + 1,
                compile_state := CompileState.kCompiled,
                compilation_result := some r }, some r, true) := by
          simp [lazyRequest, hs, if_neg hlt]
        have hrest := lazyRun_compiled threshold r n
          { e with
              request_count := e.request_count + 1,
              compile_state := CompileState.kCompiled,
              compilation_result := some r } rfl
        simp only [hstep, hrest, List.countP_cons]
        have hzero : (List.replicate n ((some r : Option Nat), false)).countP
            (fun o => o.2) = 0 := by
          rw [List.countP_eq_zero]
          intro a ha
          rw [List.eq_of_mem_replicate ha]
          simp
        simp [hzero]
    · by_cases hlt : e.request_count + 1 < threshold
      · have hstep : lazyRequest threshold r e =
            ({ e with request_count := e.request_count + 1 }, none, false) := by
          simp [lazyRequest, hs, if_pos hlt]
        simp only [hstep, List.countP_cons]
        simpa using ih { e with request_count := e.request_count + 1 }
      · have hstep : lazyRequest threshold r e =
            ({ e with
                request_count := e.request_count + 1,
                compile_state := CompileState.kCompiled,
                compilation_result := some r }, some r, true) := by
          simp [lazyRequest, hs, if_neg hlt]
        have hrest := lazyRun_compiled threshold r n
          { e with
              request_count := e.request_count + 1,
              compile_state := CompileState.kCompiled,
              compilation_result := some r } rfl
        simp only [hstep, hrest, List.countP_cons]
        have hzero : (List.replicate n ((some r : Option Nat), false)).countP
            (fun o => o.2) = 0 := by
          rw [List.countP_eq_zero]
          intro a ha
          rw [List.eq_of_mem_replicate ha]
          simp
        simp [hzero]
    · have hstep : lazyRequest threshold r e =
          ({ e with request_count := e.request_count + 1 },
            e.compilation_result, false) := by
        simp [lazyRequest, hs]
      simp only [hstep, List.countP_cons]
      simpa using ih { e with request_count := e.request_count + 1 }

/-- C3: in lazy mode with compilation threshold `T`, for a fresh signature
the first `T − 1` lazy requests return no result, increment the request
counter, and do not invoke the Compiler; the `T`-th request invokes the
Compiler exactly once (at most one invocation ever happens); and with the
default threshold of 0 the first lazy call compiles immediately and returns a
populated result, while a second call returns the cached result without
invoking the Compiler and with `request_count = 2`. -/
theorem lazy_compilation_threshold (T r k n : Nat) :
    (k < T → lazyRun T r k freshEntry =
        (⟨CompileState.kUncompiled, k, none⟩,
          List.replicate k (none, false))) ∧
    (k + 1 = T →
      lazyRequest T r ⟨CompileState.kUncompiled, k, none⟩ =
        (⟨CompileState.kCompiled, T, some r⟩, some r, true)) ∧
    (((lazyRun T r n freshEntry).2.countP (fun o => o.2)) ≤ 1) ∧
    (lazyRun kDefaultCompilationThreshold r 2 freshEntry =
      (⟨CompileState.kCompiled, 2, some r⟩,
        [(some r, true), (some r, false)])) := by
  refine ⟨?_, ?_, lazyRun_invocations_le_one T r n freshEntry, ?_⟩
  · intro hk
    have := lazyRun_below T r k 0 (by omega)
    simpa [freshEntry] using this
  · intro hT
    have hnot : ¬ (k + 1 < T) := by omega
    simp [lazyRequest, hnot, hT]
  · have h1 : lazyRequest kDefaultCompilationThreshold r freshEntry =
        (⟨CompileState.kCompiled, 1, some r⟩, some r, true) := by
      simp [lazyRequest, freshEntry, kDefaultCompilationThreshold]
    have h2 : lazyRequest kDefaultCompilationThreshold r
        ⟨CompileState.kCompiled, 1, some r⟩ =
        (⟨CompileState.kCompiled, 2, some r⟩, some r, false) := by
      simp [lazyRequest]
    rw [lazyRun, lazyRun, lazyRun]
    simp only [h1, h2]

/-- Witness for C3 at threshold 3, result 7: two below-threshold requests
skip compilation, the third compiles, at most one invocation ever occurs,
and the default-threshold scenario behaves as specified. -/
theorem lazy_compilation_threshold_witness :
    lazyRun 3 7 2 freshEntry =
        (⟨CompileState.kUncompiled, 2, none⟩,
          List.replicate 2 (none, false)) ∧
      lazyRequest 3 7 ⟨CompileState.kUncompiled, 2, none⟩ =
        (⟨CompileState.kCompiled, 3, some 7⟩, some 7, true) ∧
      (((lazyRun 3 7 5 freshEntry).2.countP (fun o => o.2)) ≤ 1) ∧
      lazyRun kDefaultCompilationThreshold 7 2 freshEntry =
        (⟨CompileState.kCompiled, 2, some 7⟩,
          [(some 7, true), (some 7, false)]) :=
  ⟨(lazy_compilation_threshold 3 7 2 5).1 (by decide),
    (lazy_compilation_threshold 3 7 2 5).2.1 (by decide),
    (lazy_compilation_threshold 3 7 2 5).2.2.1,
    (lazy_compilation_threshold 3 7 2 5).2.2.2⟩

/-- No stats operation ever clears a cluster's megamorphic flag. -/
theorem applyStatsOp_preserves_megamorphic (t : StatsTable) (c : String) :
    ∀ op : StatsOp, (t c).is_megamorphic = true →
      (((applyStatsOp t op).1) c).is_megamorphic = true := by
  intro op h
  cases op with
  | request mode cl w =>
    simp only [applyStatsOp, updateStats]
    split
    · simpa using h
    · exact h
  | markMegamorphic cl =>
    simp only [applyStatsOp, updateStats]
    split
    · simp
    · exact h
  | recordCompilation cl tm =>
    simp only [applyStatsOp, updateStats]
    split
    · simpa using h
    · exact h

/-- C4: the `is_megamorphic` flag is one-way — once set true for a cluster
name it never reverts for any later sequence of operations — and after it is
set, every subsequent request in every compile mode for any signature under
that cluster name skips compilation and never invokes the Compiler again. -/
theorem megamorphic_is_one_way (t : StatsTable) (c : String)
    (ops : List StatsOp) (x : StatsOp × Option Bool) (mode : CompileMode)
    (w : Bool) :
    (t c).is_megamorphic = true →
    (((runStatsOps t ops).1 c).is_megamorphic = true ∧
      (x ∈ (runStatsOps t ops).2 → x.1 = StatsOp.request mode c w →
        x.2 = some false)) := by
  induction ops generalizing t with
  | nil =>
    intro h
    exact ⟨by simpa [runStatsOps] using h, by simp [runStatsOps]⟩
  | cons op ops ih =>
    intro h
    have hflag := applyStatsOp_preserves_megamorphic t c op h
    obtain ⟨ih1, ih2⟩ := ih (applyStatsOp t op).1 hflag
    constructor
    · simpa only [runStatsOps] using ih1
    · intro hmem hx
      simp only [runStatsOps] at hmem
      rcases List.mem_cons.mp hmem with heq | hmem2
      · have hop : op = StatsOp.request mode c w := by
          rw [← hx, heq]
        subst hop
        rw [heq]
        simp [applyStatsOp, h]
      · exact ih2 hmem2 hx

/-- Witness for C4: with every cluster already megamorphic, one strict-mode
request leaves the flag set and does not invoke the Compiler. -/
theorem megamorphic_is_one_way_witness :
    ((runStatsOps sampleMegamorphicTable
          [StatsOp.request CompileMode.kStrict "c0" true]).1 "c0").is_megamorphic =
        true ∧
      ((StatsOp.request CompileMode.kStrict "c0" true,
          (some false : Option Bool)) : StatsOp × Option Bool).2 = some false :=
  ⟨(megamorphic_is_one_way sampleMegamorphicTable "c0"
      [StatsOp.request CompileMode.kStrict "c0" true]
      (StatsOp.request CompileMode.kStrict "c0" true, some false)
      CompileMode.kStrict true rfl).1,
    (megamorphic_is_one_way sampleMegamorphicTable "c0"
      [StatsOp.request CompileMode.kStrict "c0" true]
      (StatsOp.request CompileMode.kStrict "c0" true, some false)
      CompileMode.kStrict true rfl).2 (by decide) rfl⟩

/-- One step preserves the compile-invocation invariant: an uncompiled entry
has never triggered the Compiler, and the Compiler has run at most once. -/
theorem cacheStep_invariant (s : CacheState) (a : CacheAction) (s2 : CacheState)
    (h : CacheStep s a s2)
    (hi : (s.entry.compile_state = CompileState.kUncompiled →
        s.compiler_invocations = 0) ∧ s.compiler_invocations ≤ 1) :
    (s2.entry.compile_state = CompileState.kUncompiled →
        s2.compiler_invocations = 0) ∧ s2.compiler_invocations ≤ 1 := by
  cases h with
  | lookup => exact hi
  | beginCompile h =>
    refine ⟨fun habs => ?_, ?_⟩
    · simp at habs
    · have h0 := hi.1 h
      show s.compiler_invocations + 1 ≤ 1
      omega
  | finishCompile st r h =>
    refine ⟨fun habs => ?_, hi.2⟩
    simp at habs
  | readResult h => exact hi

/-- Every reachable state satisfies the compile-invocation invariant. -/
theorem cacheReachable_invariant (s : CacheState) (h : CacheReachable s) :
    (s.entry.compile_state = CompileState.kUncompiled →
        s.compiler_invocations = 0) ∧ s.compiler_invocations ≤ 1 := by
  unfold CacheReachable CacheSteps at h
  induction h with
  | refl => exact ⟨fun _ => rfl, by decide⟩
  | tail hsteps hstep ih =>
    obtain ⟨a, hstep2⟩ := hstep
    exact cacheStep_invariant _ a _ hstep2 ih

/-- Once an entry is compiled, no step changes its state, its recorded
status/result, or the number of Compiler invocations. -/
theorem cacheStep_compiled_stable (s : CacheState) (a : CacheAction)
    (s2 : CacheState) (h : CacheStep s a s2)
    (hc : s.entry.compile_state = CompileState.kCompiled) :
    s2.entry.compile_state = CompileState.kCompiled ∧
      s2.entry.compilation_status = s.entry.compilation_status ∧
      s2.entry.compilation_result = s.entry.compilation_result ∧
      s2.compiler_invocations = s.compiler_invocations := by
  cases h with
  | lookup => exact ⟨hc, rfl, rfl, rfl⟩
  | beginCompile h => rw [hc] at h; exact absurd h (by simp)
  | finishCompile st r h => rw [hc] at h; exact absurd h (by simp)
  | readResult h => exact ⟨hc, rfl, rfl, rfl⟩

/-- Once an entry is compiled, any interleaving of further steps preserves
its state, its recorded status/result, and the invocation count. -/
theorem cacheSteps_compiled_stable (s s2 : CacheState) (h : CacheSteps s s2)
    (hc : s.entry.compile_state = CompileState.kCompiled) :
    s2.entry.compile_state = CompileState.kCompiled ∧
      s2.entry.compilation_status = s.entry.compilation_status ∧
      s2.entry.compilation_result = s.entry.compilation_result ∧
      s2.compiler_invocations = s.compiler_invocations := by
  unfold CacheSteps at h
  induction h with
  | refl => exact ⟨hc, rfl, rfl, rfl⟩
  | tail hsteps hstep ih =>
    obtain ⟨a, hstep2⟩ := hstep
    obtain ⟨i1, i2, i3, i4⟩ := ih
    obtain ⟨j1, j2, j3, j4⟩ := cacheStep_compiled_stable _ a _ hstep2 i1
    exact ⟨j1, j2.trans i2, j3.trans i3, j4.trans i4⟩

/-- Inverting a read step: the state is unchanged, the observed status and
result are exactly the recorded ones, and the entry was compiled. -/
theorem cacheStep_read_inv (s s2 : CacheState) (st : Status) (r : Option Nat)
    (h : CacheStep s (CacheAction.readResult st r) s2) :
    s2 = s ∧ st = s.entry.compilation_status ∧
      r = s.entry.compilation_result ∧
      s.entry.compile_state = CompileState.kCompiled := by
  cases h with
  | readResult h => exact ⟨rfl, rfl, rfl, h⟩

/-- One step changes the request counter by exactly 1 on a lookup and not at
all otherwise. -/
theorem cacheStep_request_count (s : CacheState) (a : CacheAction)
    (s2 : CacheState) (h : CacheStep s a s2) :
    s2.entry.request_count =
      s.entry.request_count + (if a = CacheAction.lookup then 1 else 0) := by
  cases h with
  | lookup => simp
  | beginCompile h => simp
  | finishCompile st r h => simp
  | readResult h => simp

/-- C1: for any signature, across any number of concurrent callers — i.e.
along every interleaving of the atomic compile-path steps from the
fresh-signature state — the external Compiler is invoked at most once, and
any two callers that read a result observe the same recorded status and
result object. -/
theorem cache_at_most_once_compilation (s s2 s3 s4 : CacheState)
    (st st2 : Status) (r r2 : Option Nat) :
    (CacheReachable s → s.compiler_invocations ≤ 1) ∧
    (CacheStep s (CacheAction.readResult st r) s2 → CacheSteps s2 s3 →
      CacheStep s3 (CacheAction.readResult st2 r2) s4 →
      st = st2 ∧ r = r2) := by
  constructor
  · intro h
    exact (cacheReachable_invariant s h).2
  · intro h1 hsteps h2
    obtain ⟨heq, hst, hr, hc⟩ := cacheStep_read_inv _ _ _ _ h1
    subst heq
    obtain ⟨k1, k2, k3, k4⟩ := cacheSteps_compiled_stable _ _ hsteps hc
    obtain ⟨heq2, hst2, hr2, hc2⟩ := cacheStep_read_inv _ _ _ _ h2
    constructor
    · rw [hst, hst2, k2]
    · rw [hr, hr2, k3]

/-- Witness for C1: the fresh state has at most one invocation, and two
reads of a concretely compiled entry observe the same status and result. -/
theorem cache_at_most_once_compilation_witness :
    initialCacheState.compiler_invocations ≤ 1 ∧
      (okStatus = okStatus ∧ (some 7 : Option Nat) = some 7) :=
  ⟨(cache_at_most_once_compilation initialCacheState initialCacheState
        initialCacheState initialCacheState okStatus okStatus none none).1
      Relation.ReflTransGen.refl,
    (cache_at_most_once_compilation sampleCompiledState sampleCompiledState
        sampleCompiledState sampleCompiledState okStatus okStatus
        (some 7) (some 7)).2
      (CacheStep.readResult sampleCompiledState rfl)
      Relation.ReflTransGen.refl
      (CacheStep.readResult sampleCompiledState rfl)⟩

/-- C2: the compile state only moves forward along
Uncompiled → Compiling → Compiled and never backward; a failed compilation
leaves the entry in a terminal Compiled state carrying the error status (not
back in Uncompiled); and once the entry is Compiled (in particular with a
recorded failure) no later interleaving ever re-invokes the Compiler, and
every later reader receives exactly the recorded status. -/
theorem entry_state_monotonic (s : CacheState) (a : CacheAction)
    (s2 s3 s4 : CacheState) (stf st : Status) (rf r : Option Nat) :
    (CacheStep s a s2 →
      s.entry.compile_state.rank ≤ s2.entry.compile_state.rank) ∧
    (CacheStep s (CacheAction.finishCompile stf rf) s2 →
      s2.entry.compile_state = CompileState.kCompiled ∧
        s2.entry.compilation_status = stf) ∧
    (s.entry.compile_state = CompileState.kCompiled → CacheSteps s s3 →
      (s3.entry.compile_state = CompileState.kCompiled ∧
        s3.entry.compilation_status = s.entry.compilation_status ∧
        s3.compiler_invocations = s.compiler_invocations)) ∧
    (s.entry.compile_state = CompileState.kCompiled → CacheSteps s s3 →
      CacheStep s3 (CacheAction.readResult st r) s4 →
      st = s.entry.compilation_status) := by
  refine ⟨?_, ?_, ?_, ?_⟩
  · intro h
    cases h with
    | lookup => exact Nat.le_refl _
    | beginCompile h =>
      rw [h]
      show CompileState.kUncompiled.rank ≤ CompileState.kCompiling.rank
      decide
    | finishCompile stx rx h =>
      rw [h]
      show CompileState.kCompiling.rank ≤ CompileState.kCompiled.rank
      decide
    | readResult h => exact Nat.le_refl _
  · intro h
    cases h with
    | finishCompile h => exact ⟨rfl, rfl⟩
  · intro hc hsteps
    obtain ⟨k1, k2, _, k4⟩ := cacheSteps_compiled_stable s s3 hsteps hc
    exact ⟨k1, k2, k4⟩
  · intro hc hsteps hread
    obtain ⟨k1, k2, _, _⟩ := cacheSteps_compiled_stable s s3 hsteps hc
    obtain ⟨_, hst, _, _⟩ := cacheStep_read_inv s3 s4 st r hread
    rw [hst, k2]

/-- Witness for C2: a concrete failing `finishCompile` moves a Compiling
entry forward to Compiled carrying the error, a compiled entry is stable
under the empty interleaving, and a read then returns the recorded status. -/
theorem entry_state_monotonic_witness :
    sampleCompilingState.entry.compile_state.rank ≤
        ({ sampleCompilingState with entry :=
            { sampleCompilingState.entry with
                compile_state := CompileState.kCompiled,
                compilation_status := invalidArgument "compilation failed",
                compilation_result := none } } : CacheState).entry.compile_state.rank ∧
      (({ sampleCompilingState with entry :=
            { sampleCompilingState.entry with
                compile_state := CompileState.kCompiled,
                compilation_status := invalidArgument "compilation failed",
                compilation_result := none } } : CacheState).entry.compile_state =
          CompileState.kCompiled ∧
        ({ sampleCompilingState with entry :=
            { sampleCompilingState.entry with
                compile_state := CompileState.kCompiled,
                compilation_status := invalidArgument "compilation failed",
                compilation_result := none } } : CacheState).entry.compilation_status =
          invalidArgument "compilation failed") ∧
      okStatus = sampleCompiledState.entry.compilation_status :=
  ⟨(entry_state_monotonic sampleCompilingState
        (CacheAction.finishCompile (invalidArgument "compilation failed") none)
        ({ sampleCompilingState with entry :=
            { sampleCompilingState.entry with
                compile_state := CompileState.kCompiled,
                compilation_status := invalidArgument "compilation failed",
                compilation_result := none } })
        sampleCompilingState sampleCompilingState
        (invalidArgument "compilation failed") okStatus none none).1
      (CacheStep.finishCompile sampleCompilingState
        (invalidArgument "compilation failed") none rfl),
    (entry_state_monotonic sampleCompilingState
        (CacheAction.finishCompile (invalidArgument "compilation failed") none)
        ({ sampleCompilingState with entry :=
            { sampleCompilingState.entry with
                compile_state := CompileState.kCompiled,
                compilation_status := invalidArgument "compilation failed",
                compilation_result := none } })
        sampleCompilingState sampleCompilingState
        (invalidArgument "compilation failed") okStatus none none).2.1
      (CacheStep.finishCompile sampleCompilingState
        (invalidArgument "compilation failed") none rfl),
    (entry_state_monotonic sampleCompiledState CacheAction.lookup
        sampleCompiledState sampleCompiledState sampleCompiledState
        okStatus okStatus none (some 7)).2.2.2 rfl
      Relation.ReflTransGen.refl
      (CacheStep.readResult sampleCompiledState rfl)⟩

/-- C8: the request counter of an entry never decreases, and a step increases
it by exactly 1 precisely when it is a lookup, regardless of how concurrent
lookups interleave. -/
theorem request_count_monotonic (s : CacheState) (a : CacheAction)
    (s2 s3 : CacheState) :
    (CacheStep s a s2 →
      s2.entry.request_count =
        s.entry.request_count + (if a = CacheAction.lookup then 1 else 0)) ∧
    (CacheSteps s s3 → s.entry.request_count ≤ s3.entry.request_count) := by
  constructor
  · exact cacheStep_request_count s a s2
  · intro h
    unfold CacheSteps at h
    induction h with
    | refl => exact Nat.le_refl _
    | tail hsteps hstep ih =>
      obtain ⟨b, hstep2⟩ := hstep
      have := cacheStep_request_count _ b _ hstep2
      omega

/-- Witness for C8: a concrete lookup step increments the fresh entry's
counter by exactly 1, and the empty interleaving does not decrease it. -/
theorem request_count_monotonic_witness :
    ({ initialCacheState with entry :=
        { initialCacheState.entry with
            request_count := initialCacheState.entry.request_count + 1 } } :
          CacheState).entry.request_count =
        initialCacheState.entry.request_count +
          (if CacheAction.lookup = CacheAction.lookup then 1 else 0) ∧
      initialCacheState.entry.request_count ≤
        initialCacheState.entry.request_count :=
  ⟨(request_count_monotonic initialCacheState CacheAction.lookup
        ({ initialCacheState with entry :=
            { initialCacheState.entry with
                request_count := initialCacheState.entry.request_count + 1 } })
        initialCacheState).1
      (CacheStep.lookup initialCacheState),
    (request_count_monotonic initialCacheState CacheAction.lookup
        initialCacheState initialCacheState).2
      Relation.ReflTransGen.refl⟩
